import Mathlib

/-!
Verification development for the `ltsv_log` telegraf input plugin
(`plugins/inputs/ltsv_log/ltsv_log.go`): a shallow embedding of the
rotation-aware LTSV log reader and its duplicate-point modifiers,
together with theorems settling the specification claims.

Modelling conventions:
* `time.Time` instants are modelled as `Int` nanoseconds; the Go zero
  value `time.Time{}` is the integer `0`.  `u.After(v)` is `v < u`.
* Go maps keyed by strings are modelled as association lists with a
  replacing insert (`mapInsert`) and a lookup (`mapLookup`).
* Calls into the Go standard library that this plugin makes are
  modelled as follows: `strconv.ParseInt(s, 10, 64)`, `strconv.ParseBool`
  and `bufio.ScanLines` are modelled concretely (`goParseInt64`,
  `goParseBool`, `goScanLines`); `time.Parse` and `strconv.ParseFloat`
  are external parameters (`ExternalParsers`), so every theorem holds
  for all behaviours of those two parsers.
* A Go runtime panic (index out of range on `kv[1]`) is a distinguished
  outcome (`LineErr.goPanic`, `LineOutcome.panicked`, `panicked` flags),
  separate from an ordinary returned `error`.
-/

namespace LtsvLog

/-- Go map assignment `m[k] = v`: replace the binding of `k` if present,
otherwise add it. -/
def mapInsert {α : Type} : List (String × α) → String → α → List (String × α)
  | [], k, v => [(k, v)]
  | (k', v') :: rest, k, v =>
      if k' = k then (k, v) :: rest else (k', v') :: mapInsert rest k v

/-- Go map read `m[k]`. -/
def mapLookup {α : Type} : List (String × α) → String → Option α
  | [], _ => none
  | (k', v') :: rest, k => if k' = k then some v' else mapLookup rest k

/-- The `tags map[string]string` of a point. -/
abbrev Tags := List (String × String)

/-! ## Duplicate point modifiers (ltsv_log.go lines 16-50) -/

/-- `AddTagDupPointModifier` struct: the `add_uniq_tag` strategy state. -/
structure AddTagDupPointModifier where
  UniqTagName : String
  prevTime : Int
  dupCount : Int
  deriving DecidableEq, Repr

/-- `func (m *AddTagDupPointModifier) Modify(t *time.Time, tags map[string]string)`:
if `*t == m.prevTime`, increment `dupCount` and set
`tags[m.UniqTagName] = strconv.FormatInt(m.dupCount, 10)`; otherwise reset
`dupCount` to 0 and record `*t` as `prevTime`.  Returns the updated
modifier and tag map (the timestamp is not modified by this strategy). -/
def AddTagDupPointModifier.Modify (m : AddTagDupPointModifier) (t : Int) (tags : Tags) :
    AddTagDupPointModifier × Tags :=
  if t = m.prevTime then
    ({ UniqTagName := m.UniqTagName, prevTime := m.prevTime, dupCount := m.dupCount + 1 },
      mapInsert tags m.UniqTagName (toString (m.dupCount + 1)))
  else
    ({ UniqTagName := m.UniqTagName, prevTime := t, dupCount := 0 }, tags)

/-- `IncTimeDupPointModifier` struct: the `increment_time` strategy state. -/
structure IncTimeDupPointModifier where
  prevTime : Int
  deriving DecidableEq, Repr

/-- `func (m *IncTimeDupPointModifier) Modify(t *time.Time, _ map[string]string)`:
if `!t.After(m.prevTime)` then `*t = m.prevTime.Add(time.Nanosecond)`;
then `m.prevTime = *t`.  Returns the updated modifier and timestamp. -/
def IncTimeDupPointModifier.Modify (m : IncTimeDupPointModifier) (t : Int) :
    IncTimeDupPointModifier × Int :=
  let t' := if ¬ m.prevTime < t then m.prevTime + 1 else t
  ({ prevTime := t' }, t')

/-- The `DupPointModifier` interface value held by the reader: one of the
three concrete strategies with its private state. -/
inductive DupModState where
  | addTag (m : AddTagDupPointModifier)
  | incTime (m : IncTimeDupPointModifier)
  | noOp
  deriving DecidableEq, Repr

/-- Dynamic dispatch of `r.dupPointModifier.Modify(&t, tags)`:
returns the updated strategy state, timestamp and tag map
(`NoOpDupPointModifier.Modify` does nothing). -/
def DupModState.modify : DupModState → Int → Tags → DupModState × Int × Tags
  | .addTag m, t, tags =>
      let r := m.Modify t tags
      (.addTag r.1, t, r.2)
  | .incTime m, t, tags =>
      let r := m.Modify t
      (.incTime r.1, r.2, tags)
  | .noOp, t, tags => (.noOp, t, tags)

/-- Sequential application of the `add_uniq_tag` modifier to a stream of
points, each given as (timestamp, its tag map); returns the resulting tag
map of each emitted point in order. -/
def addTagRunTags (m : AddTagDupPointModifier) : List (Int × Tags) → List Tags
  | [] => []
  | (t, tg) :: rest =>
      let r := m.Modify t tg
      r.2 :: addTagRunTags r.1 rest

/-- Sequential application of the `increment_time` modifier to a stream of
timestamps; returns the emitted (possibly forced) timestamps in order. -/
def incTimeRun (m : IncTimeDupPointModifier) : List Int → List Int
  | [] => []
  | t :: ts =>
      let r := m.Modify t
      r.2 :: incTimeRun r.1 ts

/-- Modelled from the spec's wording for the `add_uniq_tag` invariant
("within a maximal run of consecutive equal timestamps, the n-th point
(1-indexed) carries tag value n-1 for n ≥ 2 and no tag for n = 1"):
position of each timestamp within its run, counted relative to a previous
timestamp `p` and a running duplicate counter `k`. -/
def runPosAux (p : Int) (k : Int) : List Int → List Int
  | [] => []
  | t :: ts => if t = p then (k + 1) :: runPosAux t (k + 1) ts else 0 :: runPosAux t 0 ts

/-- Modelled from the spec's wording: 0-indexed position of each
timestamp within its maximal run of consecutive equal timestamps (the
first element of the list always starts a run). -/
def specRunIndex : List Int → List Int
  | [] => []
  | t :: ts => 0 :: runPosAux t 0 ts

/-- Modelled from the spec's wording: the timestamps of an input sequence
are in non-decreasing order. -/
def nonDecr : List Int → Bool
  | [] => true
  | [_] => true
  | a :: b :: rest => a ≤ b && nonDecr (b :: rest)

/-! ## Go standard library calls made by the plugin -/

/-- Decimal digit value of a character, if it is a digit. -/
def digitVal (c : Char) : Option Nat :=
  if '0' ≤ c ∧ c ≤ '9' then some (c.toNat - Char.toNat '0') else none

/-- Accumulate a base-10 natural number; fails on any non-digit. -/
def parseDigitsAux : List Char → Nat → Option Nat
  | [], acc => some acc
  | c :: rest, acc =>
      match digitVal c with
      | none => none
      | some d => parseDigitsAux rest (acc * 10 + d)

/-- `strconv.ParseInt(s, 10, 64)`: optional sign, base-10 digits, signed
64-bit range check (an out-of-range value is an error, as the plugin
treats any non-nil error as a failure). -/
def goParseInt64 (s : String) : Except String Int :=
  match s.data with
  | [] => .error "invalid syntax"
  | c :: rest =>
      let neg := c = '-'
      let ds := if c = '-' ∨ c = '+' then rest else c :: rest
      match ds with
      | [] => .error "invalid syntax"
      | _ :: _ =>
        match parseDigitsAux ds 0 with
        | none => .error "invalid syntax"
        | some n =>
            let v : Int := if neg then -(n : Int) else (n : Int)
            if v < -(2 ^ 63) ∨ (2 ^ 63 - 1) < v then .error "value out of range"
            else .ok v

/-- `strconv.ParseBool`: accepts exactly the canonical Go boolean strings. -/
def goParseBool (s : String) : Except String Bool :=
  if s = "1" ∨ s = "t" ∨ s = "T" ∨ s = "true" ∨ s = "TRUE" ∨ s = "True" then .ok true
  else if s = "0" ∨ s = "f" ∨ s = "F" ∨ s = "false" ∨ s = "FALSE" ∨ s = "False" then .ok false
  else .error "invalid syntax"

/-- Split a character list at the first colon, if any. -/
def splitAtColon : List Char → Option (List Char × List Char)
  | [] => none
  | c :: rest =>
      if c = ':' then some ([], rest)
      else
        match splitAtColon rest with
        | none => none
        | some (a, b) => some (c :: a, b)

/-- `strings.SplitN(term, ":", 2)`: the first component is `kv[0]` (the
part before the first colon, or the whole term when it has no colon);
the second component is `some` of `kv[1]` (everything after the first
colon) exactly when the term contains a colon — accessing `kv[1]` when it
is `none` is a Go index-out-of-range panic. -/
def goSplitN2 (s : String) : String × Option String :=
  match splitAtColon s.data with
  | none => (s, none)
  | some (a, b) => (String.mk a, some (String.mk b))

/-- Split a character list on every occurrence of a separator character
(the semantics of Go `strings.Split` with a one-character separator). -/
def splitOnCharAux (sep : Char) : List Char → List Char → List (List Char)
  | [], acc => [acc.reverse]
  | c :: rest, acc =>
      if c = sep then acc.reverse :: splitOnCharAux sep rest []
      else splitOnCharAux sep rest (c :: acc)

/-- Go `strings.Split(s, sep)` for a one-character separator:
`""` yields `[""]`, and there is one segment per separator plus one. -/
def splitOnChar (s : String) (sep : Char) : List String :=
  (splitOnCharAux sep s.data []).map String.mk

/-- `bufio.ScanLines` drops one trailing carriage return from a token. -/
def goDropCR (s : String) : String :=
  match s.data.getLast? with
  | some '\r' => String.mk s.data.dropLast
  | _ => s

/-- The tokens produced by a `bufio.Scanner` with the default `ScanLines`
split function reading the given content to EOF: the segments between
newline characters, where the final segment is a token exactly when it is
non-empty (Go returns the last line even if it has no trailing newline). -/
def goScanLines (content : String) : List String :=
  let segs := splitOnChar content '\n'
  let toks :=
    match segs.getLast? with
    | some "" => segs.dropLast
    | _ => segs
  toks.map goDropCR

/-- The UTF-8 byte length of a character (Go strings are byte slices). -/
def charUtf8Size (c : Char) : Nat :=
  if c.toNat < 0x80 then 1
  else if c.toNat < 0x800 then 2
  else if c.toNat < 0x10000 then 3
  else 4

/-- Go `len(s)`: the UTF-8 byte length of a string. -/
def goLen (s : String) : Nat := (s.data.map charUtf8Size).sum

/-! ## Configuration and construction (ltsv_log.go lines 52-78, 141-192) -/

/-- The configuration fields of the `ltsvLogReader` struct used by the
line codec and the reader algorithm. -/
structure LtsvConfig where
  Measurement : String
  TimeLabel : String
  TimeFormat : String
  StrFields : List String
  IntFields : List String
  FloatFields : List String
  BoolFields : List String
  LogTags : List String
  deriving DecidableEq, Repr

/-- The two Go standard library parsers the codec calls whose behaviour
is not modelled concretely: `time.Parse(format, value)` (returning an
instant) and `strconv.ParseFloat(value, 64)` (returning a value of an
abstract float type `Flt`).  All theorems are quantified over these. -/
structure ExternalParsers (Flt : Type) where
  timeParse : String → String → Except String Int
  parseFloat : String → Except String Flt

/-- `newFieldSet`: builds the label-to-kind map, inserting string, int,
float and boolean labels in that order (a repeated label keeps the kind
inserted last). -/
def newFieldSet (strFields intFields floatFields boolFields : List String) :
    List (String × String) :=
  let s := strFields.foldl (fun s f => mapInsert s f "string") []
  let s := intFields.foldl (fun s f => mapInsert s f "int") s
  let s := floatFields.foldl (fun s f => mapInsert s f "float") s
  boolFields.foldl (fun s f => mapInsert s f "boolean") s

/-- `newTagSet`: the set of tag labels (membership is what the reader
queries). -/
def newTagSet (names : List String) : List String := names

/-- The switch in `Start` selecting the duplicate point modifier from
`duplicate_points_workaround_method`: any name other than exactly
`add_uniq_tag` or `increment_time` falls to the default no-op case. -/
def selectDupPointModifier (method uniqTag : String) : DupModState :=
  if method = "add_uniq_tag" then
    .addTag { UniqTagName := uniqTag, prevTime := 0, dupCount := 0 }
  else if method = "increment_time" then
    .incTime { prevTime := 0 }
  else
    .noOp

/-- The error-relevant behaviour of `Start`: select the modifier, then
`openLog`; `Start` fails only when opening the file fails. -/
def startReader (openOk : Bool) (method uniqTag : String) : Except String DupModState :=
  let m := selectDupPointModifier method uniqTag
  if openOk then .ok m else .error "open failed"

/-! ## Line codec (ltsv_log.go lines 263-307, `processLine`) -/

/-- A typed field value; `Flt` is the abstract 64-bit float type. -/
inductive FieldValue (Flt : Type) where
  | str (s : String)
  | int (i : Int)
  | float (f : Flt)
  | bool (b : Bool)
  deriving DecidableEq, Repr

/-- A point handed to `acc.AddFields(measurement, fields, tags, t)`. -/
structure Point (Flt : Type) where
  measurement : String
  fields : List (String × FieldValue Flt)
  tags : Tags
  time : Int
  deriving DecidableEq, Repr

/-- How processing of one term can abort: a Go runtime panic (indexing
`kv[1]` when the term has no colon and its label is recognized), or a
returned parse error. -/
inductive LineErr where
  | goPanic
  | err (e : String)
  deriving DecidableEq, Repr

/-- One iteration of the term loop in `processLine`: split the term at
the first colon, then dispatch on the label `kv[0]`:
the time label (parse `kv[1]` with the configured format, replacing `t`),
else a field label (convert `kv[1]` to the declared kind),
else a tag label (store `kv[1]` verbatim), else ignore the term.
Every branch that reads `kv[1]` panics when the term has no colon. -/
def processTerm {Flt : Type} (cfg : LtsvConfig) (lib : ExternalParsers Flt)
    (fieldSet : List (String × String)) (tagSet : List String) (term : String)
    (t : Int) (fields : List (String × FieldValue Flt)) (tags : Tags) :
    Except LineErr (Int × List (String × FieldValue Flt) × Tags) :=
  let kv := goSplitN2 term
  let k := kv.1
  if k = cfg.TimeLabel then
    match kv.2 with
    | none => .error .goPanic
    | some v =>
      match lib.timeParse cfg.TimeFormat v with
      | .error e => .error (.err e)
      | .ok tt => .ok (tt, fields, tags)
  else
    match mapLookup fieldSet k with
    | some typ =>
      if typ = "string" then
        match kv.2 with
        | none => .error .goPanic
        | some v => .ok (t, mapInsert fields k (.str v), tags)
      else if typ = "int" then
        match kv.2 with
        | none => .error .goPanic
        | some v =>
          match goParseInt64 v with
          | .error e => .error (.err e)
          | .ok n => .ok (t, mapInsert fields k (.int n), tags)
      else if typ = "float" then
        match kv.2 with
        | none => .error .goPanic
        | some v =>
          match lib.parseFloat v with
          | .error e => .error (.err e)
          | .ok f => .ok (t, mapInsert fields k (.float f), tags)
      else if typ = "boolean" then
        match kv.2 with
        | none => .error .goPanic
        | some v =>
          match goParseBool v with
          | .error e => .error (.err e)
          | .ok b => .ok (t, mapInsert fields k (.bool b), tags)
      else
        -- unreachable: `newFieldSet` only stores the four kind names,
        -- and a `switch` with no matching case does nothing
        .ok (t, fields, tags)
    | none =>
      if tagSet.contains k then
        match kv.2 with
        | none => .error .goPanic
        | some v => .ok (t, fields, mapInsert tags k v)
      else .ok (t, fields, tags)

/-- The term loop of `processLine` over `strings.Split(line, "\t")`,
starting from the zero `time.Time` and empty field and tag maps. -/
def processTerms {Flt : Type} (cfg : LtsvConfig) (lib : ExternalParsers Flt)
    (fieldSet : List (String × String)) (tagSet : List String) :
    List String → Int → List (String × FieldValue Flt) → Tags →
    Except LineErr (Int × List (String × FieldValue Flt) × Tags)
  | [], t, fields, tags => .ok (t, fields, tags)
  | term :: rest, t, fields, tags =>
    match processTerm cfg lib fieldSet tagSet term t fields tags with
    | .error e => .error e
    | .ok (t', f', g') => processTerms cfg lib fieldSet tagSet rest t' f' g'

/-- Result of `processLine`: a Go panic, a returned error (line dropped,
nothing emitted), or a point emitted to the accumulator after the
duplicate point modifier ran on the timestamp and tag map. -/
inductive LineOutcome (Flt : Type) where
  | panicked
  | errored (e : String)
  | emitted (p : Point Flt) (m : DupModState)
  deriving DecidableEq, Repr

/-- `true` for the outcomes in which no point is emitted. -/
def LineOutcome.isFailure {Flt : Type} : LineOutcome Flt → Bool
  | .panicked => true
  | .errored _ => true
  | .emitted _ _ => false

/-- `func (r *ltsvLogReader) processLine(line string) error`: run the
term loop, then `r.dupPointModifier.Modify(&t, tags)` and
`r.acc.AddFields(r.Measurement, fields, tags, t)`. -/
def processLine {Flt : Type} (cfg : LtsvConfig) (lib : ExternalParsers Flt)
    (fieldSet : List (String × String)) (tagSet : List String)
    (m : DupModState) (line : String) : LineOutcome Flt :=
  match processTerms cfg lib fieldSet tagSet (splitOnChar line '\t') 0 [] [] with
  | .error .goPanic => .panicked
  | .error (.err e) => .errored e
  | .ok (t, fields, tags) =>
    let r := m.modify t tags
    .emitted { measurement := cfg.Measurement, fields := fields, tags := r.2.2, time := r.2.1 } r.1

/-! ## Rotation-aware file reader (ltsv_log.go lines 212-261, 321-340) -/

/-- Result of `readCurrentFile` on one batch of scanner tokens:
whether a line panicked, the byte count `n` accumulated so far, the
points emitted (in order) before any abort, the modifier state after the
emitted points, and the error returned by the first failing line (the
loop returns at the first error, leaving later tokens unprocessed). -/
structure BatchResult (Flt : Type) where
  panicked : Bool
  n : Int
  points : List (Point Flt)
  modSt : DupModState
  err : Option String
  deriving DecidableEq, Repr

/-- The `for scanner.Scan()` loop of `readCurrentFile`: per token, add
`len(text)` bytes to `n`, then `processLine`; return at the first error
(dropping the remaining tokens of the batch). -/
def readLines {Flt : Type} (cfg : LtsvConfig) (lib : ExternalParsers Flt)
    (fieldSet : List (String × String)) (tagSet : List String) :
    DupModState → List String → Int → List (Point Flt) → BatchResult Flt
  | m, [], n, acc =>
      { panicked := false, n := n, points := acc.reverse, modSt := m, err := none }
  | m, line :: rest, n, acc =>
      let n' := n + (goLen line : Int)
      match processLine cfg lib fieldSet tagSet m line with
      | .panicked =>
          { panicked := true, n := n', points := acc.reverse, modSt := m, err := none }
      | .errored e =>
          { panicked := false, n := n', points := acc.reverse, modSt := m, err := some e }
      | .emitted p m' => readLines cfg lib fieldSet tagSet m' rest n' (p :: acc)

/-- `func (r *ltsvLogReader) readCurrentFile() (n int64, err error)`:
scan every token the default `ScanLines` splitter produces from the
unread remainder visible through the open handle. -/
def readCurrentFile {Flt : Type} (cfg : LtsvConfig) (lib : ExternalParsers Flt)
    (fieldSet : List (String × String)) (tagSet : List String)
    (m : DupModState) (rest : String) : BatchResult Flt :=
  readLines cfg lib fieldSet tagSet m (goScanLines rest) 0 []

/-- The mutable reader state touched by `read`: the unread remainder
visible through the open handle, a handle generation counter (bumped each
time `reopenLog` opens a fresh handle at the path), the previously
recorded file size, and the duplicate point modifier state.  After a
batch the scanner has consumed the remainder, so `rest` becomes empty;
on an aborted batch the data the scanner had buffered is likewise lost to
the handle. -/
structure ReaderState where
  rest : String
  gen : Nat
  prevFileSize : Int
  modSt : DupModState
  deriving DecidableEq, Repr

/-- The file system as one invocation of `read` observes it:
the `os.Stat(r.Path)` result (`none` is a stat error), the content of
the file currently at the path (what a fresh `os.Open` would read from
its start), and whether `Close`/`Open` succeed during `reopenLog`. -/
structure FSView where
  statSize : Option Int
  pathContent : String
  openOk : Bool
  closeOk : Bool
  deriving DecidableEq, Repr

/-- Result of one invocation of `read`: whether it panicked (no return
value then), the returned `(n, err)`, the points emitted to the
accumulator during the invocation, and the reader state afterwards
(the deferred `setPrevFileSize` runs even during a panic unwind). -/
structure StepResult (Flt : Type) where
  panicked : Bool
  n : Int
  err : Option String
  points : List (Point Flt)
  state : ReaderState
  deriving DecidableEq, Repr

/-- `func (r *ltsvLogReader) read() (n int64, err error)`:
stat the path (a failure returns before the deferred size update is
registered); if `size < r.prevFileSize && size > 0`, first drain the
stale handle (`readCurrentFile`), returning on error with `n` still zero
and no reopen, then `reopenLog` (close then open a fresh handle at the
path), returning on error; finally `readCurrentFile` on the now-open
handle.  Every exit after a successful stat records `size` as
`prevFileSize` via the deferred `setPrevFileSize`. -/
def readStep {Flt : Type} (cfg : LtsvConfig) (lib : ExternalParsers Flt)
    (fieldSet : List (String × String)) (tagSet : List String)
    (fs : FSView) (st : ReaderState) : StepResult Flt :=
  match fs.statSize with
  | none =>
      { panicked := false, n := 0, err := some "stat error", points := [], state := st }
  | some size =>
    if size < st.prevFileSize ∧ 0 < size then
      let b1 := readCurrentFile cfg lib fieldSet tagSet st.modSt st.rest
      if b1.panicked then
        { panicked := true, n := 0, err := none, points := b1.points,
          state := { rest := "", gen := st.gen, prevFileSize := size, modSt := b1.modSt } }
      else
        match b1.err with
        | some e =>
            { panicked := false, n := 0, err := some e, points := b1.points,
              state := { rest := "", gen := st.gen, prevFileSize := size, modSt := b1.modSt } }
        | none =>
          if ¬ fs.closeOk then
            { panicked := false, n := b1.n, err := some "close error", points := b1.points,
              state := { rest := "", gen := st.gen, prevFileSize := size, modSt := b1.modSt } }
          else if ¬ fs.openOk then
            { panicked := false, n := b1.n, err := some "open error", points := b1.points,
              state := { rest := "", gen := st.gen, prevFileSize := size, modSt := b1.modSt } }
          else
            let b2 := readCurrentFile cfg lib fieldSet tagSet b1.modSt fs.pathContent
            if b2.panicked then
              { panicked := true, n := 0, err := none, points := b1.points ++ b2.points,
                state := { rest := "", gen := st.gen + 1, prevFileSize := size,
                           modSt := b2.modSt } }
            else
              { panicked := false, n := b1.n + b2.n, err := b2.err,
                points := b1.points ++ b2.points,
                state := { rest := "", gen := st.gen + 1, prevFileSize := size,
                           modSt := b2.modSt } }
    else
      let b := readCurrentFile cfg lib fieldSet tagSet st.modSt st.rest
      if b.panicked then
        { panicked := true, n := 0, err := none, points := b.points,
          state := { rest := "", gen := st.gen, prevFileSize := size, modSt := b.modSt } }
      else
        { panicked := false, n := b.n, err := b.err, points := b.points,
          state := { rest := "", gen := st.gen, prevFileSize := size, modSt := b.modSt } }

/-! ## Polling driver and stop (ltsv_log.go lines 194-210, 315-319) -/

/-- The state of the `done chan struct{}` channel: `nilChan` before
`Start` ever ran, `opened` after `make(chan struct{})`, `closed` after
`close(r.done)`. -/
inductive ChanState where
  | nilChan
  | opened
  | closed
  deriving DecidableEq, Repr

/-- Go `close(ch)`: succeeds only on an open channel; closing a nil or
an already-closed channel is a runtime panic (`none`). -/
def closeChan : ChanState → Option ChanState
  | .opened => some .closed
  | _ => none

/-- `func (r *ltsvLogReader) Stop()`: take the mutex, `close(r.done)`,
release the mutex.  `Stop` performs no other operation: it never reads
from a channel and never waits for the receiver goroutine. -/
def stopReader (done : ChanState) : Option ChanState := closeChan done

/-- Outcome of one iteration of the `receiver` loop. -/
inductive RecvOutcome where
  | exited
  | crashed
  | continued (logged : Bool) (slept : Bool)
  deriving DecidableEq, Repr

/-- One iteration of `receiver`'s `for`/`select` loop: when `done` is
closed the receive case is ready and the goroutine returns (running the
deferred `clean`); otherwise (open or nil channel) the `default` case
runs `read`, logs if it returned an error, and sleeps when `n == 0`.
An unrecovered panic in `read` crashes the goroutine (and the process). -/
def receiverIter {Flt : Type} (cfg : LtsvConfig) (lib : ExternalParsers Flt)
    (fieldSet : List (String × String)) (tagSet : List String)
    (fs : FSView) (done : ChanState) (st : ReaderState) :
    RecvOutcome × ReaderState :=
  match done with
  | .closed => (.exited, st)
  | _ =>
    let r : StepResult Flt := readStep cfg lib fieldSet tagSet fs st
    if r.panicked then (.crashed, r.state)
    else (.continued r.err.isSome (r.n == 0), r.state)

/-! ## Concrete instances used to evaluate the model -/

/-- A concrete instantiation of the external parsers (used only to
evaluate the model at concrete inputs): timestamps are parsed as base-10
integers and every float parses to `()`. -/
def demoParsers : ExternalParsers Unit :=
  { timeParse := fun _ s => goParseInt64 s
  , parseFloat := fun _ => .ok () }

/-- A small concrete configuration: time label `time`, one integer field
`n`, one tag label `host`. -/
def demoCfg : LtsvConfig :=
  { Measurement := "m", TimeLabel := "time", TimeFormat := "f"
  , StrFields := [], IntFields := ["n"], FloatFields := [], BoolFields := []
  , LogTags := ["host"] }

/-- The field set `Start` builds from `demoCfg`. -/
def demoFieldSet : List (String × String) :=
  newFieldSet demoCfg.StrFields demoCfg.IntFields demoCfg.FloatFields demoCfg.BoolFields

/-- The tag set `Start` builds from `demoCfg`. -/
def demoTagSet : List String := newTagSet demoCfg.LogTags

/-! ## Theorems -/

/-- C8: after every invocation of `read` in which `os.Stat` succeeds with
size `size`, the reader's stored `prevFileSize` equals `size`, on every
path (rotation or not, error returns after the stat, and even a panic
unwind, since `setPrevFileSize` runs as a deferred call). -/
theorem c8_prev_size_recorded {Flt : Type} (cfg : LtsvConfig) (lib : ExternalParsers Flt)
    (fieldSet : List (String × String)) (tagSet : List String)
    (fs : FSView) (st : ReaderState) (size : Int) (h : fs.statSize = some size) :
    (readStep cfg lib fieldSet tagSet fs st).state.prevFileSize = size := by
  unfold readStep
  rw [h]
  dsimp only
  repeat' split
  all_goals rfl

/-- C8 witness: at a concrete file system view and reader state with
observed size 3, the recorded previous size after the step is 3. -/
theorem c8_prev_size_recorded_witness :
    (readStep demoCfg demoParsers demoFieldSet demoTagSet
      { statSize := some 3, pathContent := "", openOk := true, closeOk := true }
      { rest := "", gen := 0, prevFileSize := 0, modSt := .noOp }).state.prevFileSize = 3 :=
  c8_prev_size_recorded demoCfg demoParsers demoFieldSet demoTagSet
    { statSize := some 3, pathContent := "", openOk := true, closeOk := true }
    { rest := "", gen := 0, prevFileSize := 0, modSt := .noOp } 3 rfl

/-- C10: any configured duplicate-point strategy name other than exactly
`add_uniq_tag` or `increment_time` selects the no-op modifier, and
`Start` raises no configuration error: it succeeds whenever the file
opens. -/
theorem c10_unknown_method_is_noop (method uniqTag : String)
    (h1 : method ≠ "add_uniq_tag") (h2 : method ≠ "increment_time") :
    selectDupPointModifier method uniqTag = .noOp ∧
      startReader true method uniqTag = .ok .noOp := by
  have hsel : selectDupPointModifier method uniqTag = .noOp := by
    unfold selectDupPointModifier
    rw [if_neg h1, if_neg h2]
  exact ⟨hsel, by unfold startReader; rw [hsel]; rfl⟩

/-- C10 witness: the sample configuration's value `none`, the name
`no_op`, the empty string, and a misspelling all select the no-op
modifier and start succeeds. -/
theorem c10_unknown_method_is_noop_witness :
    startReader true "none" "u" = .ok .noOp ∧
      startReader true "no_op" "u" = .ok .noOp ∧
      startReader true "" "u" = .ok .noOp ∧
      startReader true "increment_tyme" "u" = .ok .noOp :=
  ⟨(c10_unknown_method_is_noop "none" "u" (by decide) (by decide)).2,
    (c10_unknown_method_is_noop "no_op" "u" (by decide) (by decide)).2,
    (c10_unknown_method_is_noop "" "u" (by decide) (by decide)).2,
    (c10_unknown_method_is_noop "increment_tyme" "u" (by decide) (by decide)).2⟩

/-- C3 (amended): on every `Modify` call of the `increment_time`
strategy, a timestamp not strictly after the stored previous timestamp is
forced to previous + 1ns, a strictly later one is kept, and the stored
previous timestamp is overwritten with the emitted value; consequently
for input timestamps `[u, u, u]` with `u` strictly after the zero instant
(the initial stored previous timestamp) the outputs are
`[u, u+1ns, u+2ns]`.  (The original claim, without the strictly-after-
zero proviso, fails at `u = 0`: see the counterexample.) -/
theorem c3_increment_time (m : IncTimeDupPointModifier) (t : Int) :
    (t ≤ m.prevTime → (m.Modify t).2 = m.prevTime + 1) ∧
    (m.prevTime < t → (m.Modify t).2 = t) ∧
    (m.Modify t).1.prevTime = (m.Modify t).2 ∧
    ∀ u : Int, 0 < u → incTimeRun { prevTime := 0 } [u, u, u] = [u, u + 1, u + 2] := by
  refine ⟨?_, ?_, rfl, ?_⟩
  · intro h
    unfold IncTimeDupPointModifier.Modify
    rw [if_pos (not_lt.mpr h)]
  · intro h
    unfold IncTimeDupPointModifier.Modify
    rw [if_neg (not_not_intro h)]
  · intro u hu
    simp only [incTimeRun, IncTimeDupPointModifier.Modify]
    rw [if_neg (not_not_intro hu), if_pos (lt_irrefl u),
      if_pos (not_lt.mpr (by omega : u ≤ u + 1))]
    simp [add_assoc]

/-- C3 witness: with stored previous timestamp 5, the incoming timestamp
3 is forced to 6; from the initial state, `[7, 7, 7]` yields
`[7, 8, 9]`. -/
theorem c3_increment_time_witness :
    (({ prevTime := 5 } : IncTimeDupPointModifier).Modify 3).2 = 5 + 1 ∧
    incTimeRun { prevTime := 0 } [7, 7, 7] = [7, 7 + 1, 7 + 2] :=
  ⟨(c3_increment_time { prevTime := 5 } 3).1 (by decide),
    (c3_increment_time { prevTime := 0 } 0).2.2.2 7 (by decide)⟩

/-- C3 counterexample: the claim's consequence fails for `t` equal to the
zero instant.  A fresh modifier stores the zero `time.Time` as its
previous timestamp, so the first incoming `0` is already "not strictly
after" it and is forced to 1ns: the outputs for `[0, 0, 0]` are
`[1, 2, 3]`, not the claimed `[0, 0+1ns, 0+2ns]`. -/
theorem c3_increment_time_counterexample :
    incTimeRun { prevTime := 0 } [0, 0, 0] = [1, 2, 3] ∧
    incTimeRun { prevTime := 0 } [0, 0, 0] ≠ [0, 0 + 1, 0 + 2] := by decide

/-- C6: a term containing no colon crashes line processing whenever its
label is recognized.  At the concrete configuration `demoCfg` (time label
`time`, integer field `n`, tag label `host`), the single-term lines
`time`, `n` and `host` each make `processLine` hit the Go index-out-of-
range panic on `kv[1]` (`strings.SplitN(term, ":", 2)` returns a
one-element slice); only an unrecognized colon-less label (`other`) is
ignored and survives.  This contradicts the claim that such terms are
treated as a label with an empty value for all labels including the
time-label, FieldSpec labels and TagSpec labels. -/
theorem c6_colonless_recognized_term_panics :
    processLine demoCfg demoParsers demoFieldSet demoTagSet .noOp "time"
        = (.panicked : LineOutcome Unit) ∧
    processLine demoCfg demoParsers demoFieldSet demoTagSet .noOp "n" = .panicked ∧
    processLine demoCfg demoParsers demoFieldSet demoTagSet .noOp "host" = .panicked ∧
    processLine demoCfg demoParsers demoFieldSet demoTagSet .noOp "other"
        = .emitted { measurement := "m", fields := [], tags := [], time := 0 } .noOp :=
  ⟨rfl, rfl, rfl, rfl⟩

/-- C5: the read step does consume a trailing line with no terminator.
`bufio.Scanner`'s default `ScanLines` split function returns the final
non-empty segment at EOF even without a newline, so for handle content
`host:h` (no line terminator) the reader consumes the whole content and
emits a point for the incomplete line in the same invocation —
contradicting the claim that a partial line is never consumed or
emitted. -/
theorem c5_partial_trailing_line_consumed :
    goScanLines "host:h" = ["host:h"] ∧
    (readStep demoCfg demoParsers demoFieldSet demoTagSet
        { statSize := some 6, pathContent := "host:h", openOk := true, closeOk := true }
        { rest := "host:h", gen := 0, prevFileSize := 0, modSt := .noOp }).points
      = [{ measurement := "m", fields := [], tags := [("host", "h")], time := 0 }] :=
  ⟨rfl, rfl⟩

/-- C9: the receiver loop exits (other than by crashing) only when the
`done` channel is closed — its only `return` is under `case <-r.done` —
and `Stop` runs `close(r.done)`, which succeeds on an open channel but
panics on an already-closed one.  Hence a `Stop` issued after the
background task has exited (which requires `done` to be closed already)
panics, contradicting the claim. -/
theorem c9_stop_after_exit_panics :
    (∀ (Flt : Type) (cfg : LtsvConfig) (lib : ExternalParsers Flt)
        (fieldSet : List (String × String)) (tagSet : List String)
        (fs : FSView) (done : ChanState) (st : ReaderState),
        (receiverIter cfg lib fieldSet tagSet fs done st).1 = RecvOutcome.exited →
          done = ChanState.closed) ∧
    stopReader ChanState.opened = some ChanState.closed ∧
    stopReader ChanState.closed = none := by
  refine ⟨?_, rfl, rfl⟩
  intro Flt cfg lib fieldSet tagSet fs done st h
  cases done with
  | closed => rfl
  | opened =>
      unfold receiverIter at h
      dsimp only at h
      split at h
      · exact absurd h (by simp)
      · exact absurd h (by simp)
  | nilChan =>
      unfold receiverIter at h
      dsimp only at h
      split at h
      · exact absurd h (by simp)
      · exact absurd h (by simp)

/-- C9 witness: at a concrete reader, an iteration with the `done`
channel closed exits, and closing the already-closed channel panics. -/
theorem c9_stop_after_exit_panics_witness :
    ChanState.closed = ChanState.closed ∧ stopReader ChanState.closed = none :=
  ⟨c9_stop_after_exit_panics.1 Unit demoCfg demoParsers demoFieldSet demoTagSet
      { statSize := none, pathContent := "", openOk := true, closeOk := true }
      ChanState.closed
      { rest := "", gen := 0, prevFileSize := 0, modSt := .noOp } rfl,
    c9_stop_after_exit_panics.2.2⟩

/-- Looking up the key just written by a Go map assignment returns the
written value. -/
theorem mapLookup_mapInsert_self {α : Type} (m : List (String × α)) (k : String) (v : α) :
    mapLookup (mapInsert m k v) k = some v := by
  induction m with
  | nil => simp [mapInsert, mapLookup]
  | cons hd tl ih =>
      obtain ⟨k', v'⟩ := hd
      unfold mapInsert
      by_cases h : k' = k
      · rw [if_pos h]
        simp [mapLookup]
      · rw [if_neg h]
        unfold mapLookup
        rw [if_neg h]
        exact ih

/-- The `add_uniq_tag` modifier, started from an arbitrary previous
timestamp `p` and a non-negative duplicate counter `c`, adds the uniq tag
to exactly the points whose position relative to `(p, c)` (as computed by
`runPosAux`) is non-zero, with the position's decimal representation as
its value — provided no input point already carries the uniq tag. -/
theorem addTagRunTags_lookup (u : String) (p c : Int) (hc : 0 ≤ c)
    (pts : List (Int × Tags)) (htg : ∀ pr ∈ pts, mapLookup pr.2 u = none) :
    (addTagRunTags { UniqTagName := u, prevTime := p, dupCount := c } pts).map
        (fun tg => mapLookup tg u)
      = (runPosAux p c (pts.map Prod.fst)).map
        (fun k => if k = 0 then none else some (toString k)) := by
  induction pts generalizing p c with
  | nil => rfl
  | cons hd tl ih =>
      obtain ⟨t, tg⟩ := hd
      simp only [List.map_cons, runPosAux, addTagRunTags, AddTagDupPointModifier.Modify]
      by_cases h : t = p
      · subst h
        rw [if_pos rfl, if_pos rfl]
        simp only [List.map_cons, List.cons.injEq]
        refine ⟨?_, ih t (c + 1) (by omega)
          (fun pr hpr => htg pr (List.mem_cons_of_mem _ hpr))⟩
        rw [mapLookup_mapInsert_self, if_neg (by omega : ¬ c + 1 = 0)]
      · rw [if_neg h, if_neg h]
        simp only [List.map_cons, List.cons.injEq, eq_self_iff_true, if_true]
        exact ⟨htg (t, tg) (List.mem_cons_self _ _),
          ih t 0 le_rfl (fun pr hpr => htg pr (List.mem_cons_of_mem _ hpr))⟩

/-- When the first timestamp differs from the zero instant, the run
positions computed from the modifier's initial state `(0, 0)` coincide
with the true maximal-run positions. -/
theorem runPosAux_zero_eq_specRunIndex (ts : List Int) (h0 : ts.head? ≠ some 0) :
    runPosAux 0 0 ts = specRunIndex ts := by
  cases ts with
  | nil => rfl
  | cons t ts' =>
      have ht : ¬ t = 0 := fun h => h0 (by rw [h]; rfl)
      unfold runPosAux specRunIndex
      rw [if_neg ht]

/-- C2 (amended): under the `add_uniq_tag` strategy, for every input
sequence of points with non-decreasing timestamps none of whose tag maps
binds the uniq tag, and whose first timestamp differs from the zero
instant (the modifier's initial stored previous timestamp), the n-th
point of each maximal run of consecutive equal timestamps carries the
uniq tag with value `toString (n-1)` for n ≥ 2 and no uniq tag for n = 1;
in particular `[t, t, t, t2]` with `t ≠ 0` and `t2 ≠ t` yields
no-tag, "1", "2", no-tag.  (The original claim, without the nonzero
first timestamp proviso, fails at timestamp 0: see the
counterexample.) -/
theorem c2_add_uniq_tag (u : String) (pts : List (Int × Tags))
    (h0 : (pts.map Prod.fst).head? ≠ some 0)
    (hmono : nonDecr (pts.map Prod.fst) = true)
    (htg : ∀ pr ∈ pts, mapLookup pr.2 u = none) :
    ((addTagRunTags { UniqTagName := u, prevTime := 0, dupCount := 0 } pts).map
        (fun tg => mapLookup tg u)
      = (specRunIndex (pts.map Prod.fst)).map
        (fun k => if k = 0 then none else some (toString k))) ∧
    ∀ t t2 : Int, t ≠ 0 → t2 ≠ t →
      (addTagRunTags { UniqTagName := u, prevTime := 0, dupCount := 0 }
          [(t, []), (t, []), (t, []), (t2, [])]).map (fun tg => mapLookup tg u)
        = [none, some "1", some "2", none] := by
  constructor
  · rw [← runPosAux_zero_eq_specRunIndex _ h0]
    exact addTagRunTags_lookup u 0 0 le_rfl pts htg
  · intro t t2 ht ht2
    rw [addTagRunTags_lookup u 0 0 le_rfl [(t, []), (t, []), (t, []), (t2, [])]
      (by intro pr hpr; fin_cases hpr <;> rfl)]
    simp only [List.map_cons, List.map_nil, runPosAux, if_neg ht, if_neg ht2,
      eq_self_iff_true, if_true]
    norm_num
    exact ⟨rfl, rfl⟩

/-- C2 witness: the concrete sequence `[4, 4, 4, 9]` with empty input tag
maps yields no-tag, "1", "2", no-tag. -/
theorem c2_add_uniq_tag_witness :
    (addTagRunTags { UniqTagName := "uniq", prevTime := 0, dupCount := 0 }
        [((4 : Int), ([] : Tags)), (4, []), (4, []), (9, [])]).map
        (fun tg => mapLookup tg "uniq")
      = [none, some "1", some "2", none] :=
  (c2_add_uniq_tag "uniq" [(4, []), (4, []), (4, []), (9, [])]
      (by decide) (by decide) (by decide)).2 4 9 (by decide) (by decide)

/-- C2 counterexample: a single point whose timestamp equals the zero
instant (e.g. produced by a line missing the time label) is the first
point of its maximal run, yet the modifier tags it `uniq="1"` because the
fresh modifier's stored previous timestamp is the zero `time.Time` — so
the claimed "no uniq tag for n = 1" fails for this non-decreasing input
sequence. -/
theorem c2_add_uniq_tag_counterexample :
    (addTagRunTags { UniqTagName := "uniq", prevTime := 0, dupCount := 0 }
        [((0 : Int), ([] : Tags))]).map (fun tg => mapLookup tg "uniq") = [some "1"] ∧
    [some "1"] ≠ [(none : Option String)] := by decide

/-- A term whose label is not the time label leaves the running timestamp
unchanged when it is processed successfully. -/
theorem processTerm_time_eq {Flt : Type} (cfg : LtsvConfig) (lib : ExternalParsers Flt)
    (fieldSet : List (String × String)) (tagSet : List String) (term : String)
    (t t' : Int) (fields fields' : List (String × FieldValue Flt)) (tags tags' : Tags)
    (hk : (goSplitN2 term).1 ≠ cfg.TimeLabel)
    (h : processTerm cfg lib fieldSet tagSet term t fields tags = .ok (t', fields', tags')) :
    t' = t := by
  simp only [processTerm] at h
  rw [if_neg hk] at h
  repeat' split at h
  all_goals simp_all

/-- A line none of whose terms carries the time label leaves the running
timestamp at its initial value when the term loop succeeds. -/
theorem processTerms_time_eq {Flt : Type} (cfg : LtsvConfig) (lib : ExternalParsers Flt)
    (fieldSet : List (String × String)) (tagSet : List String) :
    ∀ (terms : List String) (t0 t' : Int) (fields0 fields' : List (String × FieldValue Flt))
      (tags0 tags' : Tags),
      (∀ term ∈ terms, (goSplitN2 term).1 ≠ cfg.TimeLabel) →
      processTerms cfg lib fieldSet tagSet terms t0 fields0 tags0 = .ok (t', fields', tags') →
      t' = t0 := by
  intro terms
  induction terms with
  | nil =>
      intro t0 t' fields0 fields' tags0 tags' _ h
      simp only [processTerms] at h
      injection h with h'
      exact (congrArg Prod.fst h').symm
  | cons term rest ih =>
      intro t0 t' fields0 fields' tags0 tags' hno h
      simp only [processTerms] at h
      rcases heq : processTerm cfg lib fieldSet tagSet term t0 fields0 tags0 with e | v
      · rw [heq] at h
        exact absurd h (by simp)
      · rw [heq] at h
        obtain ⟨t1, f1, g1⟩ := v
        have h1 : t1 = t0 :=
          processTerm_time_eq cfg lib fieldSet tagSet term t0 t1 fields0 f1 tags0 g1
            (hno term (List.mem_cons_self _ _)) heq
        have h2 : t' = t1 :=
          ih t1 t' f1 fields' g1 tags' (fun tm htm => hno tm (List.mem_cons_of_mem _ htm)) h
        exact h2.trans h1

/-- C7 (amended): for every line that contains no term whose label equals
the configured time label, if the term loop succeeds (i.e. every
recognized term carries a colon and its value decodes), the point emitted
(shown before resolver adjustment, with the no-op modifier) carries the
zero/epoch timestamp — indistinguishable from an explicit zero-valued
timestamp.  (The original claim's unconditional "line processing does not
fail" is refuted by the counterexample: a line without a time term can
still fail on a malformed typed field.) -/
theorem c7_missing_time_label_zero (Flt : Type) (cfg : LtsvConfig) (lib : ExternalParsers Flt)
    (fieldSet : List (String × String)) (tagSet : List String) (line : String)
    (t : Int) (fields : List (String × FieldValue Flt)) (tags : Tags)
    (hno : ∀ term ∈ splitOnChar line '\t', (goSplitN2 term).1 ≠ cfg.TimeLabel)
    (hok : processTerms cfg lib fieldSet tagSet (splitOnChar line '\t') 0 [] []
      = .ok (t, fields, tags)) :
    t = 0 ∧
    processLine cfg lib fieldSet tagSet .noOp line
      = .emitted { measurement := cfg.Measurement, fields := fields, tags := tags, time := 0 }
          .noOp := by
  have ht : t = 0 :=
    processTerms_time_eq cfg lib fieldSet tagSet (splitOnChar line '\t') 0 t [] fields [] tags
      hno hok
  subst ht
  refine ⟨rfl, ?_⟩
  unfold processLine
  rw [hok]
  rfl

/-- C7 witness: the line `host:a` (no time term) emits a point with
timestamp zero and the tag `host=a`. -/
theorem c7_missing_time_label_zero_witness :
    processLine demoCfg demoParsers demoFieldSet demoTagSet .noOp "host:a"
      = .emitted { measurement := demoCfg.Measurement, fields := [],
                   tags := [("host", "a")], time := 0 } .noOp :=
  (c7_missing_time_label_zero Unit demoCfg demoParsers demoFieldSet demoTagSet "host:a"
      0 [] [("host", "a")] (by decide) rfl).2

/-- C7 counterexample: the line `n:abc` contains no term labelled with
the time label `time`, yet line processing fails (the integer field `n`
does not parse) and no point is emitted — refuting the claim that every
line without a time-label term yields an emitted point. -/
theorem c7_missing_time_label_zero_counterexample :
    (∀ term ∈ splitOnChar "n:abc" '\t', (goSplitN2 term).1 ≠ demoCfg.TimeLabel) ∧
    (processLine demoCfg demoParsers demoFieldSet demoTagSet .noOp "n:abc").isFailure
      = true := by decide

/-- C4 (amended): when decoding of a line fails, no point is emitted for
that line and the error is reported, but the batch is aborted: the
`readCurrentFile` loop returns at the failing line, so the later lines of
the same batch are not decoded in that invocation.  The polling driver
then logs the error and continues — a read error never makes the
receiver loop exit. -/
theorem c4_line_error_aborts_batch {Flt : Type} (cfg : LtsvConfig) (lib : ExternalParsers Flt)
    (fieldSet : List (String × String)) (tagSet : List String)
    (m : DupModState) (line : String) (e : String) (rest : List String)
    (n : Int) (acc : List (Point Flt))
    (herr : processLine cfg lib fieldSet tagSet m line = .errored e) :
    (readLines cfg lib fieldSet tagSet m (line :: rest) n acc
      = { panicked := false, n := n + (goLen line : Int), points := acc.reverse,
          modSt := m, err := some e }) ∧
    ∀ (fs : FSView) (st : ReaderState),
      (readStep cfg lib fieldSet tagSet fs st : StepResult Flt).panicked = false →
      (receiverIter cfg lib fieldSet tagSet fs ChanState.opened st).1
        = RecvOutcome.continued ((readStep cfg lib fieldSet tagSet fs st).err.isSome)
            ((readStep cfg lib fieldSet tagSet fs st).n == 0) := by
  constructor
  · simp only [readLines]
    rw [herr]
  · intro fs st hp
    simp only [receiverIter]
    rw [if_neg (by rw [hp]; exact Bool.false_ne_true)]

/-- C4 witness: at the concrete batch `n:abc`, `host:h` the failing first
line yields an error and an empty point list, and a receiver iteration
over a concrete non-panicking read continues (does not exit). -/
theorem c4_line_error_aborts_batch_witness :
    (readLines demoCfg demoParsers demoFieldSet demoTagSet .noOp ["n:abc", "host:h"] 0 []
      = { panicked := false, n := 0 + (goLen "n:abc" : Int), points := [],
          modSt := .noOp, err := some "invalid syntax" }) ∧
    (receiverIter demoCfg demoParsers demoFieldSet demoTagSet
        { statSize := some 1, pathContent := "", openOk := true, closeOk := true }
        ChanState.opened
        { rest := "n:abc\nhost:h\n", gen := 0, prevFileSize := 5, modSt := .noOp }).1
      = RecvOutcome.continued true true :=
  ⟨(c4_line_error_aborts_batch demoCfg demoParsers demoFieldSet demoTagSet .noOp "n:abc"
      "invalid syntax" ["host:h"] 0 [] rfl).1,
    (c4_line_error_aborts_batch demoCfg demoParsers demoFieldSet demoTagSet .noOp "n:abc"
      "invalid syntax" ["host:h"] 0 [] rfl).2
      { statSize := some 1, pathContent := "", openOk := true, closeOk := true }
      { rest := "n:abc\nhost:h\n", gen := 0, prevFileSize := 5, modSt := .noOp } rfl⟩

/-- C4 counterexample: in the batch `n:abc` then `host:h`, the second
line decodes on its own, yet after the first line's decode error the
invocation emits no point at all (`points = []`) and returns the error —
the later line of the batch is not decoded and emitted, refuting the
claim. -/
theorem c4_line_error_aborts_batch_counterexample :
    (processLine demoCfg demoParsers demoFieldSet demoTagSet .noOp "host:h"
      = .emitted { measurement := "m", fields := [], tags := [("host", "h")], time := 0 }
          .noOp) ∧
    (readCurrentFile demoCfg demoParsers demoFieldSet demoTagSet .noOp "n:abc\nhost:h\n"
      = { panicked := false, n := 5, points := [], modSt := .noOp,
          err := some "invalid syntax" }) :=
  ⟨rfl, rfl⟩

/-- C1 (amended): in a read step whose stat succeeds with size `size`:
(i) when `size < prevFileSize ∧ size > 0` fails, no reopen occurs (the
handle generation is unchanged) and the points come from draining the
existing handle; (ii) when the rotation condition holds and the drain of
the stale handle completes without panic or line error and the close and
open both succeed, a new handle is opened at the path (generation bumped)
and the emitted points are exactly the full stale drain followed by the
lines of the file now at the path, read from its start; (iii) a reopen
happens only when the rotation condition holds.  (The original claim's
unconditional "in that case it first drains every remaining line and
only then closes and opens" is refuted by the counterexample: a line
error during the drain skips the reopen.) -/
theorem c1_rotation_detection {Flt : Type} (cfg : LtsvConfig) (lib : ExternalParsers Flt)
    (fieldSet : List (String × String)) (tagSet : List String)
    (fs : FSView) (st : ReaderState) (size : Int) (hstat : fs.statSize = some size) :
    (¬ (size < st.prevFileSize ∧ 0 < size) →
      (readStep cfg lib fieldSet tagSet fs st : StepResult Flt).state.gen = st.gen ∧
      (readStep cfg lib fieldSet tagSet fs st : StepResult Flt).points
        = (readCurrentFile cfg lib fieldSet tagSet st.modSt st.rest).points) ∧
    ((size < st.prevFileSize ∧ 0 < size) →
      (readCurrentFile cfg lib fieldSet tagSet st.modSt st.rest : BatchResult Flt).panicked
          = false →
      (readCurrentFile cfg lib fieldSet tagSet st.modSt st.rest : BatchResult Flt).err = none →
      fs.closeOk = true → fs.openOk = true →
      (readStep cfg lib fieldSet tagSet fs st : StepResult Flt).state.gen = st.gen + 1 ∧
      (readStep cfg lib fieldSet tagSet fs st : StepResult Flt).points
        = (readCurrentFile cfg lib fieldSet tagSet st.modSt st.rest).points
          ++ (readCurrentFile cfg lib fieldSet tagSet
                (readCurrentFile cfg lib fieldSet tagSet st.modSt st.rest
                  : BatchResult Flt).modSt fs.pathContent).points) ∧
    ((readStep cfg lib fieldSet tagSet fs st : StepResult Flt).state.gen ≠ st.gen →
      size < st.prevFileSize ∧ 0 < size) := by
  refine ⟨?_, ?_, ?_⟩
  · intro hc
    simp only [readStep, hstat]
    rw [if_neg hc]
    split
    · exact ⟨rfl, rfl⟩
    · exact ⟨rfl, rfl⟩
  · intro hc hp he hclose hopen
    simp only [readStep, hstat]
    rw [if_pos hc, hp, he, hclose, hopen]
    simp only [Bool.false_eq_true, if_false, not_true, if_neg (not_not_intro trivial)]
    split
    · exact ⟨rfl, rfl⟩
    · exact ⟨rfl, rfl⟩
  · intro hg
    by_contra hc
    apply hg
    simp only [readStep, hstat]
    rw [if_neg hc]
    split
    · rfl
    · rfl

/-- C1 witness: (i) with observed size 6 ≥ previous size 0 the handle
generation stays 0; (ii) with observed size 1 < previous size 5, a clean
drain of `host:a` and a successful reopen, the generation is bumped from
3 to 4. -/
theorem c1_rotation_detection_witness :
    (readStep demoCfg demoParsers demoFieldSet demoTagSet
        { statSize := some 6, pathContent := "x", openOk := true, closeOk := true }
        { rest := "", gen := 0, prevFileSize := 0, modSt := .noOp }).state.gen = 0 ∧
    (readStep demoCfg demoParsers demoFieldSet demoTagSet
        { statSize := some 1, pathContent := "host:b\n", openOk := true, closeOk := true }
        { rest := "host:a\n", gen := 3, prevFileSize := 5, modSt := .noOp }).state.gen
      = 3 + 1 :=
  ⟨((c1_rotation_detection demoCfg demoParsers demoFieldSet demoTagSet
      { statSize := some 6, pathContent := "x", openOk := true, closeOk := true }
      { rest := "", gen := 0, prevFileSize := 0, modSt := .noOp } 6 rfl).1
      (by decide)).1,
    ((c1_rotation_detection demoCfg demoParsers demoFieldSet demoTagSet
      { statSize := some 1, pathContent := "host:b\n", openOk := true, closeOk := true }
      { rest := "host:a\n", gen := 3, prevFileSize := 5, modSt := .noOp } 1 rfl).2.1
      (by decide) rfl rfl rfl rfl).1⟩

/-- C1 counterexample: the rotation condition holds (observed size 1 is
below the previous size 5 and positive), yet the invocation does not open
a new handle (the generation stays 0) and does not process every
remaining line of the stale handle (`host:h` yields no point), because
the drain stopped at the line error on `n:abc` and `read` returned before
`reopenLog` — refuting the claim that in that case the reader always
drains everything and then reopens. -/
theorem c1_rotation_detection_counterexample :
    ((1 : Int) < 5 ∧ (0 : Int) < 1) ∧
    (readStep demoCfg demoParsers demoFieldSet demoTagSet
        { statSize := some 1, pathContent := "new:1\n", openOk := true, closeOk := true }
        { rest := "n:abc\nhost:h\n", gen := 0, prevFileSize := 5, modSt := .noOp }).state.gen
      = 0 ∧
    (readStep demoCfg demoParsers demoFieldSet demoTagSet
        { statSize := some 1, pathContent := "new:1\n", openOk := true, closeOk := true }
        { rest := "n:abc\nhost:h\n", gen := 0, prevFileSize := 5, modSt := .noOp }).err
      = some "invalid syntax" ∧
    (readStep demoCfg demoParsers demoFieldSet demoTagSet
        { statSize := some 1, pathContent := "new:1\n", openOk := true, closeOk := true }
        { rest := "n:abc\nhost:h\n", gen := 0, prevFileSize := 5, modSt := .noOp }).points
      = [] :=
  ⟨by decide, rfl, rfl, rfl⟩

end LtsvLog
